import Mathlib

/-!
Shallow embedding of the `baos` KNX/FT1.2 gateway (Rust) for specification
checking.  Bytes are modelled as `Nat` with explicit `% 256` where the source
performs `u8` arithmetic or `as u8` casts; byte strings are `List Nat`;
fallible functions return `Except`.  Every definition is translated from the
repository sources (`src/ft12.rs`, `src/types.rs`, `src/tracking.rs`,
`src/main.rs`); the file and line of each origin is noted next to it.
-/

namespace Baos

/-- FT1.2 protocol constants, `ft12.rs` lines 6-14. -/
def FT12_RESET_REQUEST : Nat := 0x10
def FT12_RESET_INDICATION : Nat := 0x40
def FT12_DATA_REQUEST : Nat := 0x73
def FT12_DATA_CONFIRM : Nat := 0xF3
def FT12_DATA_INDICATION : Nat := 0xD3
def FT12_ACKNOWLEDGE : Nat := 0xE5
def FT12_FRAME_START : Nat := 0x68
def FT12_FRAME_END : Nat := 0x16

/-- cEMI message code for L_Data.ind, `ft12.rs` line 20. -/
def KDRIVE_CEMI_L_DATA_IND : Nat := 0x29
/-- cEMI message code for L_Data.req, `ft12.rs` line 22. -/
def KDRIVE_CEMI_L_DATA_REQ : Nat := 0x11
/-- Group-value buffer size, `ft12.rs` line 23. -/
def KDRIVE_MAX_GROUP_VALUE_LEN : Nat := 14

/-- Error enum `KDriveErr` of `ft12.rs` (the variants the embedding reaches). -/
inductive KDriveErr where
  | InvalidFrameLength
  | InvalidFrameStart
  | LengthMismatch
  | FrameLengthMismatch
  | InvalidFrameEnd
  | ChecksumMismatch
  | CemiFrameTooShortForDestination
  | CemiFrameTooShortForDataLength
  | CemiFrameTruncated
  | CemiDataTooLarge
  deriving DecidableEq, Repr

/-- FT1.2 frame, `ft12.rs` lines 26-30: a control byte and a data payload. -/
structure Ft12Frame where
  control : Nat
  data : List Nat
  deriving DecidableEq, Repr

namespace Ft12Frame

/-- `Ft12Frame::calculate_checksum`, `ft12.rs` lines 40-46:
modulo-256 sum of the control byte and all data bytes. -/
def calculateChecksum (control : Nat) (data : List Nat) : Nat :=
  (control + data.sum) % 256

/-- `Ft12Frame::to_bytes`, `ft12.rs` lines 48-61.  The length byte is
`(data.len() + 1) as u8`. -/
def toBytes (f : Ft12Frame) : List Nat :=
  let length := (f.data.length + 1) % 256
  let checksum := calculateChecksum f.control f.data
  FT12_FRAME_START :: length :: length :: FT12_FRAME_START :: f.control ::
    (f.data ++ [checksum, FT12_FRAME_END])

/-- `Ft12Frame::from_bytes`, `ft12.rs` lines 63-100. -/
def fromBytes (bytes : List Nat) : Except KDriveErr Ft12Frame :=
  if bytes.length < 8 then .error .InvalidFrameLength
  else if bytes.getD 0 0 ≠ FT12_FRAME_START ∨ bytes.getD 3 0 ≠ FT12_FRAME_START then
    .error .InvalidFrameStart
  else
    let length := bytes.getD 1 0
    if bytes.getD 2 0 ≠ length then .error .LengthMismatch
    else if bytes.length ≠ length + 6 then .error .FrameLengthMismatch
    else
      let control := bytes.getD 4 0
      let dataLen := length - 1
      let data := (bytes.drop 5).take dataLen
      let checksum := bytes.getD (5 + dataLen) 0
      let endByte := bytes.getD (5 + dataLen + 1) 0
      if endByte ≠ FT12_FRAME_END then .error .InvalidFrameEnd
      else if checksum ≠ calculateChecksum control data then .error .ChecksumMismatch
      else .ok ⟨control, data⟩

end Ft12Frame

/-- `KDrive::create_group_write_cemi`, `ft12.rs` lines 146-194: builds the
cEMI byte sequence for a group write.  `as u8` casts are `% 256` / `&&& 0xFF`. -/
def createGroupWriteCemi (addr : Nat) (data : List Nat) : List Nat :=
  let head := [KDRIVE_CEMI_L_DATA_REQ, 0x00, 0xBC, 0xE0, 0x00, 0x00,
    (addr >>> 8) % 256, addr &&& 0xFF]
  if data.length = 1 then
    let apci := 0x0080 ||| (data.getD 0 0 &&& 0x3F)
    head ++ [1, (apci >>> 8) % 256, apci &&& 0xFF]
  else
    head ++ [(1 + data.length) % 256, 0x00, 0x80] ++ data.drop 1

/-- `KDrive::group_write`, `ft12.rs` lines 131-144: the frame put on the wire
for a group write.  The control byte is always `FT12_DATA_REQUEST`; the
`KDrive` struct holds no parity state (`ft12.rs` lines 103-108). -/
def groupWriteFrame (addr : Nat) (data : List Nat) : Ft12Frame :=
  ⟨FT12_DATA_REQUEST, createGroupWriteCemi addr data⟩

/-- The control bytes a sequence of `group_write` calls puts on the wire
(`ft12.rs` lines 131-144 and 196-216: `send_frame` writes `frame.to_bytes()`,
whose fifth byte is the control byte). -/
def sendControlSeq (writes : List (Nat × List Nat)) : List Nat :=
  writes.map (fun w => ((groupWriteFrame w.1 w.2).toBytes).getD 4 0)

/-! ## cEMI message accessors (`ft12.rs` lines 746-816) -/

namespace cEMIMsg

/-- `cEMIMsg::get_msg_code`, `ft12.rs` lines 758-760. -/
def getMsgCode (data : List Nat) : Nat :=
  data.getD 0 0

/-- `cEMIMsg::is_group_write`, `ft12.rs` lines 762-773: the APCI code is
`(big_endian_u16(data[9], data[10]) >> 6) & 0x0F`; group write is code 2. -/
def isGroupWrite (data : List Nat) : Bool :=
  if data.length < 11 then false
  else ((data.getD 9 0 * 256 + data.getD 10 0) >>> 6) &&& 0x0F = 2

/-- `cEMIMsg::get_dest`, `ft12.rs` lines 775-780. -/
def getDest (data : List Nat) : Except KDriveErr Nat :=
  if data.length < 8 then .error .CemiFrameTooShortForDestination
  else .ok (data.getD 6 0 * 256 + data.getD 7 0)

/-- `cEMIMsg::get_group_data`, `ft12.rs` lines 782-815: reads the NPDU length
at offset 8, copies `len` payload bytes from offset 10, masks the top two APCI
bits off the first byte and returns the first `max(len - 1, 1)` bytes. -/
def getGroupData (data : List Nat) : Except KDriveErr (List Nat) :=
  if data.length < 9 then .error .CemiFrameTooShortForDataLength
  else
    let len := data.getD 8 0
    if len = 0 then .ok []
    else if data.length < 10 + len then .error .CemiFrameTruncated
    else
      let payload := (data.drop 10).take len
      if KDRIVE_MAX_GROUP_VALUE_LEN < payload.length then .error .CemiDataTooLarge
      else
        let msg := (payload.getD 0 0 &&& 0x3F) :: payload.tail
        .ok (msg.take (max (len - 1) 1))

end cEMIMsg

/-! ## Address model and blind state (`types.rs`) -/

/-- `Direction`, `types.rs` lines 11-16. -/
inductive Direction where
  | Up
  | Down
  deriving DecidableEq, Repr

/-- Durations are nanoseconds.  `FULL_TRAVEL_TIME = Duration::from_millis(63_500)`,
`main.rs` line 29. -/
def FULL_TRAVEL_TIME : Nat := 63500 * 1000000

/-- `FULL_TURN_TIME = Duration::from_millis(2_800)`, `main.rs` line 31. -/
def FULL_TURN_TIME : Nat := 2800 * 1000000

namespace Blind

/-- `Blind::BUS_START_ADDR`, `types.rs` line 22. -/
def BUS_START_ADDR : Nat := 0xAA
/-- `Blind::CMD_SINGLE_STEP`, `types.rs` line 23. -/
def CMD_SINGLE_STEP : Nat := 0x1100
/-- `Blind::CMD_FULL_MOVE`, `types.rs` line 24. -/
def CMD_FULL_MOVE : Nat := 0x1000

/-- `Blind::from_port`, `types.rs` lines 27-29 (`c` is the letter's byte). -/
def fromPort (c : Nat) : Nat :=
  c - 97 + BUS_START_ADDR

/-- `Blind::from_bus_addr`, `types.rs` lines 33-42: splits the address into
`upper = addr & 0xFF00` and `lower = addr & 0xFF`; returns
`Ok((lower, upper == CMD_SINGLE_STEP))` whenever
`lower - BUS_START_ADDR` exists and is at most `'h' - 'a' = 7`,
and `Err((lower, upper))` otherwise. -/
def fromBusAddr (addr : Nat) : Except (Nat × Nat) (Nat × Bool) :=
  let upper := addr &&& 0xFF00
  let lower := addr &&& 0xFF
  if BUS_START_ADDR ≤ lower ∧ lower - BUS_START_ADDR ≤ 7 then
    .ok (lower, upper = CMD_SINGLE_STEP)
  else
    .error (lower, upper)

/-- `Blind::to_bus_addr`, `types.rs` lines 45-51. -/
def toBusAddr (blind : Nat) (singleStep : Bool) : Nat :=
  if singleStep then CMD_SINGLE_STEP + blind else CMD_FULL_MOVE + blind

/-- `Blind::wind`, `types.rs` lines 57-59. -/
def wind : Nat := 0

end Blind

namespace Angle

/-- `Angle::MAX`, `types.rs` line 69. -/
def MAX : Nat := 7

/-- `Angle::up`, `types.rs` lines 70-83.  `div as u8` is `% 256`; the `u8`
addition is modelled modulo 256 as well. -/
def up (a : Nat) (timeMoving : Nat) : Nat :=
  if FULL_TURN_TIME ≤ timeMoving then MAX
  else
    let div := MAX * timeMoving / FULL_TURN_TIME
    let t := (a + div % 256) % 256
    if MAX < t then MAX else t

/-- `Angle::down`, `types.rs` lines 85-92 (`saturating_sub` is `Nat` sub). -/
def down (a : Nat) (timeMoving : Nat) : Nat :=
  if FULL_TURN_TIME ≤ timeMoving then 0
  else
    let div := MAX * timeMoving / FULL_TURN_TIME
    a - div % 256

/-- `Angle::step_up`, `types.rs` lines 93-102: new angle and saturation flag. -/
def stepUp (a : Nat) (arg : Nat) : Nat × Bool :=
  let t := (a + arg) % 256
  if MAX < t then (MAX, true) else (t, false)

/-- `Angle::step_down`, `types.rs` lines 104-112. -/
def stepDown (a : Nat) (arg : Nat) : Nat × Bool :=
  if arg ≤ a then (a - arg, false) else (0, true)

/-- `Angle::step_time`, `types.rs` lines 116-118:
`FULL_TURN_TIME * steps / MAX` at `Duration` (nanosecond) precision. -/
def stepTime (steps : Nat) : Nat :=
  FULL_TURN_TIME * steps / MAX

end Angle

namespace Pos

/-- `Pos::up`, `types.rs` lines 151-163. -/
def up (p : Nat) (timeMoving : Nat) : Nat :=
  if FULL_TRAVEL_TIME ≤ timeMoving then 100
  else
    let div := 100 * timeMoving / FULL_TRAVEL_TIME
    let t := (p + div % 256) % 256
    if 100 < t then 100 else t

/-- `Pos::down`, `types.rs` lines 165-172. -/
def down (p : Nat) (timeMoving : Nat) : Nat :=
  if FULL_TRAVEL_TIME ≤ timeMoving then 0
  else
    let div := 100 * timeMoving / FULL_TRAVEL_TIME
    p - div % 256

end Pos

/-! ## Position estimator (`tracking.rs`) -/

/-- One `StateStore` entry, `types.rs` line 8:
`(Option<Instant>, Direction, Pos, Angle)` — time of last change (present iff
a move is in progress), direction, position, angle.  Instants are `Nat`
nanoseconds. -/
structure BlindState where
  time : Option Nat
  movesUp : Direction
  pos : Nat
  ang : Nat
  deriving DecidableEq, Repr

/-- The `StateStore` map (`HashMap<Blind, ...>`) as a function from the blind's
bus byte to an optional entry. -/
def StateStore : Type := Nat → Option BlindState

/-- `HashMap::insert`. -/
def StateStore.insert (m : StateStore) (k : Nat) (v : BlindState) : StateStore :=
  fun q => if q = k then some v else m q

/-- The empty `StateStore` (`HashMap::with_capacity(8)`, `main.rs` line 52). -/
def StateStore.empty : StateStore := fun _ => none

/-- `full_move`, `tracking.rs` lines 253-266: endpoint `(pos, ang)` of a
complete run in the given direction. -/
def fullMove (movesUp : Direction) : Nat × Nat :=
  match movesUp with
  | .Up => (100, Angle.MAX)
  | .Down => (0, 0)

/-- `shortened_move`, `tracking.rs` lines 224-251: update `(pos, ang)` for a
move of duration `timeMoving` in direction `movesUp`. -/
def shortenedMove (timeMoving : Nat) (movesUp : Direction) (pos ang : Nat) :
    Nat × Nat :=
  if FULL_TRAVEL_TIME ≤ timeMoving then fullMove movesUp
  else
    match movesUp with
    | .Up => (Pos.up pos timeMoving, Angle.up ang timeMoving)
    | .Down => (Pos.down pos timeMoving, Angle.down ang timeMoving)

/-- The eight blind bus bytes `from_port('a')..from_port('h')`
(`for k in b'a'..=b'h'`). -/
def allBlinds : List Nat :=
  (List.range 8).map (fun i => Blind.BUS_START_ADDR + i)

/-- `track_single_press`, `tracking.rs` lines 162-222.  `time.duration_since t`
is `Nat` (saturating) subtraction. -/
def trackSinglePress (time : Nat) (goesUp : Direction) (isSingleStep : Bool)
    (id : Nat) (states : StateStore) : StateStore :=
  if id = Blind.wind then
    allBlinds.foldl
      (fun m k => m.insert k ⟨some time, goesUp, 100, Angle.MAX⟩) states
  else if isSingleStep then
    match states id with
    | some st =>
      match st.time with
      | some t =>
        let pa := shortenedMove (time - t) st.movesUp st.pos st.ang
        states.insert id ⟨none, st.movesUp, pa.1, pa.2⟩
      | none =>
        let a := match goesUp with
          | .Up => (Angle.stepUp st.ang 1).1
          | .Down => (Angle.stepDown st.ang 1).1
        states.insert id ⟨none, st.movesUp, st.pos, a⟩
    | none => states
  else
    match states id with
    | some st =>
      match st.time with
      | some t =>
        let pa := shortenedMove (time - t) st.movesUp st.pos st.ang
        states.insert id ⟨some time, goesUp, pa.1, pa.2⟩
      | none => states.insert id ⟨some time, goesUp, st.pos, st.ang⟩
    | none =>
      let moveit := match goesUp with
        | .Up => Direction.Down
        | .Down => Direction.Up
      let pa := fullMove moveit
      states.insert id ⟨some time, goesUp, pa.1, pa.2⟩

/-- The 5-second-timeout sweep of `track_movements`, `tracking.rs` lines
133-152: entries whose in-progress move started at least `FULL_TRAVEL_TIME`
ago are completed (`t.elapsed()` is saturating subtraction from `now`). -/
def sweep (now : Nat) (states : StateStore) : StateStore :=
  allBlinds.foldl
    (fun m id =>
      match m id with
      | some st =>
        match st.time with
        | some t =>
          if FULL_TRAVEL_TIME ≤ now - t then
            let pa := fullMove st.movesUp
            m.insert id ⟨none, st.movesUp, pa.1, pa.2⟩
          else m
        | none => m
      | none => m)
    states

/-- One input to the `track_movements` loop, `tracking.rs` lines 113-155:
either a channel message `(time, direction, is_single_step, blind)` or a
5-second timeout sweeping at the current instant. -/
inductive EstimatorEvent where
  | press (time : Nat) (goesUp : Direction) (isSingleStep : Bool) (id : Nat)
  | timeout (now : Nat)
  deriving DecidableEq, Repr

/-- Applying one event in the `track_movements` loop. -/
def estimatorStep (states : StateStore) : EstimatorEvent → StateStore
  | .press time goesUp isSingleStep id =>
    trackSinglePress time goesUp isSingleStep id states
  | .timeout now => sweep now states

/-- Running the `track_movements` loop over a sequence of events. -/
def runEstimator (events : List EstimatorEvent) (states : StateStore) :
    StateStore :=
  events.foldl estimatorStep states

/-- The §3 invariant: every stored entry has position in `[0, 100]` and angle
in `[0, 7]`. -/
def storeBounded (m : StateStore) : Prop :=
  ∀ k st, m k = some st → st.pos ≤ 100 ∧ st.ang ≤ Angle.MAX

/-! ## Telegram classification (`tracking.rs` lines 17-111) -/

/-- A `ChannelMsg`, `types.rs` line 6: `(time, direction, is_single_step, id)`. -/
def ChannelMsg : Type := Nat × Direction × Bool × Nat

/-- `track_write`, `tracking.rs` lines 84-111: the channel message sent for a
group write to `addr` with value byte `val` (`Instant::now()` is `now`).
`val == Direction::Up as u8` compares against 0. -/
def trackWriteEvent (addr val now : Nat) : Option ChannelMsg :=
  match Blind.fromBusAddr addr with
  | .ok rs => some (now, if val = 0 then .Up else .Down, rs.2, rs.1)
  | .error _ => none

/-- The `L_Data.con` branch of `on_telegram`, `tracking.rs` lines 64-79. -/
def onTelegramConEvent (data : List Nat) (now : Nat) : Option ChannelMsg :=
  if data.take 6 = [46, 0, 188, 224, 255, 255] ∧
      (data.drop 8).take 2 = [1, 0] then
    if data.getD 6 0 &&& 0x10 ≠ 0 then
      if data.getD 10 0 &&& 0x80 ≠ 0 then
        trackWriteEvent (data.getD 6 0 * 256 + data.getD 7 0)
          (data.getD 10 0 &&& 0x7F) now
      else none
    else none
  else none

/-- `on_telegram`, `tracking.rs` lines 17-81: the channel message (if any)
sent for an incoming cEMI telegram.  Address 1 with payload other than `[0]`
is the wind alarm; address 2 is the legacy wind value (no message); cover
addresses (`addr & 0xFE00 == 0x1000`) with a one-byte payload go through
`track_write`.  When the group-write parse fails, control falls through to
the `L_Data.con` branch. -/
def onTelegramEvent (data : List Nat) (now : Nat) : Option ChannelMsg :=
  if cEMIMsg.getMsgCode data = KDRIVE_CEMI_L_DATA_IND ∧
      cEMIMsg.isGroupWrite data then
    match cEMIMsg.getDest data with
    | .ok addr =>
      match cEMIMsg.getGroupData data with
      | .ok msg =>
        if addr = 1 then
          if msg ≠ [0] then some (now, .Up, false, Blind.wind) else none
        else if addr = 2 then none
        else if addr &&& 0xFE00 = 0x1000 ∧ msg.length = 1 then
          trackWriteEvent addr (msg.getD 0 0) now
        else none
      | .error _ => onTelegramConEvent data now
    | .error _ => onTelegramConEvent data now
  else onTelegramConEvent data now

/-! ## Receive path (`ft12.rs` lines 574-672)

The serial stream is modelled as a list of delivered byte chunks, one per
receiver-loop iteration (`port.read` returns the pending bytes). -/

/-- Observable outcome of one receiver-loop iteration: whether the 0xE5 ack
was written, the error `process_frame` reported (logged, non-fatal), and
whether the loop continues. -/
structure RxOutcome where
  ackSent : Bool
  procErr : Option KDriveErr
  continues : Bool
  deriving DecidableEq, Repr

/-- `KDriveFT12::process_frame`, `ft12.rs` lines 644-672: a single 0xE5 byte
is a stray ack; anything else is parsed with `Ft12Frame::from_bytes` (frames
whose control byte is `FT12_DATA_INDICATION` are then dispatched to the
callbacks). -/
def processFrame (frame : List Nat) : Except KDriveErr Ft12Frame :=
  if frame.length = 1 ∧ frame.getD 0 0 = FT12_ACKNOWLEDGE then
    .ok ⟨FT12_ACKNOWLEDGE, []⟩
  else Ft12Frame.fromBytes frame

/-- One iteration of the receiver loop: `read_and_ack_whole_frame` (`ft12.rs`
lines 618-642) followed by the `match` in `start_receiver_thread` (lines
594-611).  An empty chunk is the 1-second `wait_read_fd` timeout (continue);
a first byte other than 0x68 is a fatal `InvalidData` error (the thread
returns); otherwise the whole frame of `chunk[1] + 6` bytes is read, the ack
is written, and only then is the frame parsed — a parse error is logged and
the loop continues. -/
def rxIteration (chunk : List Nat) : RxOutcome :=
  if chunk.length = 0 then ⟨false, none, true⟩
  else if chunk.getD 0 0 ≠ FT12_FRAME_START then ⟨false, none, false⟩
  else
    let length := chunk.getD 1 0 + 6
    if chunk.length < length then ⟨false, none, false⟩
    else
      match processFrame (chunk.take length) with
      | .ok _ => ⟨true, none, true⟩
      | .error e => ⟨true, some e, true⟩

/-- The receiver loop over a sequence of delivered chunks, stopping at the
first fatal outcome. -/
def receiverRun : List (List Nat) → List RxOutcome
  | [] => []
  | chunk :: rest =>
    let o := rxIteration chunk
    if o.continues then o :: receiverRun rest else [o]

/-! ## Motion planner, angle phase (`main.rs` lines 225-242) -/

/-- An observable planner action: a group write `(bus address, direction)`
sent to the writer task, or a sleep of the given nanoseconds. -/
inductive PlanAct where
  | send (addr : Nat) (dir : Direction)
  | sleep (ns : Nat)
  deriving DecidableEq, Repr

/-- The angle phase of `move_to_pos`, `main.rs` lines 225-242: with current
angle `cur` and target `targetA`, either a lone single-step in the position
phase's direction (when equal), or full-move, sleep
`FULL_TURN_TIME * div / 8`, single-step, all in the delta's direction. -/
def anglePhase (id cur targetA : Nat) (posDir : Direction) : List PlanAct :=
  if targetA < cur then
    [.send (Blind.toBusAddr id false) .Down,
     .sleep (FULL_TURN_TIME * (cur - targetA) / 8),
     .send (Blind.toBusAddr id true) .Down]
  else if cur = targetA then
    [.send (Blind.toBusAddr id true) posDir]
  else
    [.send (Blind.toBusAddr id false) .Up,
     .sleep (FULL_TURN_TIME * (targetA - cur) / 8),
     .send (Blind.toBusAddr id true) .Up]

/-- `Angle::delta`, `types.rs` lines 122-130: direction and step count from
the current angle to `other`. -/
def Angle.delta (a other : Nat) : Direction × Nat :=
  if other < a then (.Down, a - other) else (.Up, other - a)

/-! ## Theorems -/

theorem toBytes_shape (c : Nat) (d : List Nat) (h : d.length ≤ 254) :
    Ft12Frame.toBytes ⟨c, d⟩ =
      0x68 :: (d.length + 1) :: (d.length + 1) :: 0x68 :: c ::
        (d ++ [(c + d.sum) % 256, 0x16]) := by
  simp [Ft12Frame.toBytes, Ft12Frame.calculateChecksum, FT12_FRAME_START,
    FT12_FRAME_END, Nat.mod_eq_of_lt (show d.length + 1 < 256 by omega)]

theorem fromBytes_shape_eval (c chk : Nat) (d : List Nat) (hd1 : 1 ≤ d.length) :
    Ft12Frame.fromBytes
      (0x68 :: (d.length + 1) :: (d.length + 1) :: 0x68 :: c ::
        (d ++ [chk, 0x16])) =
      if chk = (c + d.sum) % 256 then .ok ⟨c, d⟩
      else .error .ChecksumMismatch := by
  have hlen : (0x68 :: (d.length + 1) :: (d.length + 1) :: 0x68 :: c ::
      (d ++ [chk, 0x16])).length = d.length + 7 := by simp
  have h0 : (0x68 :: (d.length + 1) :: (d.length + 1) :: 0x68 :: c ::
      (d ++ [chk, 0x16])).getD 0 0 = 0x68 := rfl
  have h1 : (0x68 :: (d.length + 1) :: (d.length + 1) :: 0x68 :: c ::
      (d ++ [chk, 0x16])).getD 1 0 = d.length + 1 := rfl
  have h2 : (0x68 :: (d.length + 1) :: (d.length + 1) :: 0x68 :: c ::
      (d ++ [chk, 0x16])).getD 2 0 = d.length + 1 := rfl
  have h3 : (0x68 :: (d.length + 1) :: (d.length + 1) :: 0x68 :: c ::
      (d ++ [chk, 0x16])).getD 3 0 = 0x68 := rfl
  have h4 : (0x68 :: (d.length + 1) :: (d.length + 1) :: 0x68 :: c ::
      (d ++ [chk, 0x16])).getD 4 0 = c := rfl
  have hup : ∀ n : Nat, 5 ≤ n →
      (0x68 :: (d.length + 1) :: (d.length + 1) :: 0x68 :: c ::
        (d ++ [chk, 0x16])).getD n 0 =
      (d ++ [chk, 0x16]).getD (n - 5) 0 := by
    intro n hn
    show ([0x68, d.length + 1, d.length + 1, 0x68, c] ++
      (d ++ [chk, 0x16])).getD n 0 = _
    exact List.getD_append_right _ _ _ _ (by simpa using hn)
  have hchkB : (0x68 :: (d.length + 1) :: (d.length + 1) :: 0x68 :: c ::
      (d ++ [chk, 0x16])).getD (5 + (d.length + 1 - 1)) 0 = chk := by
    rw [hup _ (by omega), show 5 + (d.length + 1 - 1) - 5 = d.length by omega,
      List.getD_append_right _ _ _ _ (le_refl _)]
    simp
  have hendB : (0x68 :: (d.length + 1) :: (d.length + 1) :: 0x68 :: c ::
      (d ++ [chk, 0x16])).getD (5 + (d.length + 1 - 1) + 1) 0 = 0x16 := by
    rw [hup _ (by omega),
      show 5 + (d.length + 1 - 1) + 1 - 5 = d.length + 1 by omega,
      List.getD_append_right _ _ _ _ (by omega)]
    simp
  have hdrop : (0x68 :: (d.length + 1) :: (d.length + 1) :: 0x68 :: c ::
      (d ++ [chk, 0x16])).drop 5 = d ++ [chk, 0x16] := rfl
  have htake : (d ++ [chk, 0x16]).take (d.length + 1 - 1) = d := by
    rw [show d.length + 1 - 1 = d.length by omega]
    exact List.take_left' rfl
  simp only [Ft12Frame.fromBytes, hlen, h0, h1, h2, h3, h4, hchkB, hendB,
    hdrop, htake, FT12_FRAME_START, FT12_FRAME_END]
  rw [if_neg (by omega), if_neg (by simp), if_neg (by omega), if_neg (by omega),
    if_neg (by simp)]
  by_cases h : chk = (c + d.sum) % 256
  · rw [if_neg (show ¬chk ≠ Ft12Frame.calculateChecksum c d by
      simp [Ft12Frame.calculateChecksum, h]), if_pos h]
  · rw [if_pos (show chk ≠ Ft12Frame.calculateChecksum c d by
      simpa [Ft12Frame.calculateChecksum] using h), if_neg h]

/-- C1, corrected: for every control byte `c` and data payload `d` with
`1 ≤ |d| ≤ 254`, parsing the serialization of `(c, d)` succeeds and returns
exactly `(c, d)`; moreover for every `0 ≤ |d| ≤ 254` the serialized sequence
has `|d| + 7` bytes, starts with 0x68, ends with 0x16, and its
second-to-last byte is `(c + sum d) mod 256`.  (The original claim also
asserted the round trip at `|d| = 0`, which `from_bytes` rejects; see the
counterexample.) -/
theorem C1_serialization_roundtrip (c : Nat) (d : List Nat)
    (hc : c < 256) (hd : ∀ b ∈ d, b < 256) (hlen : d.length ≤ 254) :
    (1 ≤ d.length → Ft12Frame.fromBytes (Ft12Frame.toBytes ⟨c, d⟩) = .ok ⟨c, d⟩)
    ∧ (Ft12Frame.toBytes ⟨c, d⟩).getD 0 0 = FT12_FRAME_START
    ∧ (Ft12Frame.toBytes ⟨c, d⟩).length = d.length + 7
    ∧ (Ft12Frame.toBytes ⟨c, d⟩).getD (d.length + 6) 0 = FT12_FRAME_END
    ∧ (Ft12Frame.toBytes ⟨c, d⟩).getD (d.length + 5) 0 = (c + d.sum) % 256 := by
  rw [toBytes_shape c d hlen]
  refine ⟨fun h1 => by rw [fromBytes_shape_eval c _ d h1, if_pos rfl],
    ?_, by simp, ?_, ?_⟩
  · simp [FT12_FRAME_START]
  · have : ∀ k : Nat,
        (0x68 :: (d.length + 1) :: (d.length + 1) :: 0x68 :: c ::
          (d ++ [(c + d.sum) % 256, 0x16])).getD (5 + k) 0 =
        (d ++ [(c + d.sum) % 256, 0x16]).getD k 0 := by
      intro k
      simp [List.getD_cons_succ, show 5 + k = k + 5 by omega]
    rw [show d.length + 6 = 5 + (d.length + 1) by omega, this,
      List.getD_append_right _ _ _ _ (by omega)]
    simp [FT12_FRAME_END]
  · have : ∀ k : Nat,
        (0x68 :: (d.length + 1) :: (d.length + 1) :: 0x68 :: c ::
          (d ++ [(c + d.sum) % 256, 0x16])).getD (5 + k) 0 =
        (d ++ [(c + d.sum) % 256, 0x16]).getD k 0 := by
      intro k
      simp [List.getD_cons_succ, show 5 + k = k + 5 by omega]
    rw [show d.length + 5 = 5 + d.length by omega, this,
      List.getD_append_right _ _ _ _ (le_refl _)]
    simp

/-- C1 counterexample: serializing control byte 0x73 with the empty data
payload yields the 7-byte frame `68 01 01 68 73 73 16`, which `from_bytes`
rejects with `InvalidFrameLength` instead of round-tripping. -/
theorem C1_counterexample :
    Ft12Frame.fromBytes (Ft12Frame.toBytes ⟨0x73, []⟩) =
      .error .InvalidFrameLength := by
  rfl

/-- C1 witness: the round trip at control 0x73, data `[0xa7]`. -/
theorem C1_witness :
    Ft12Frame.fromBytes (Ft12Frame.toBytes ⟨0x73, [0xa7]⟩) = .ok ⟨0x73, [0xa7]⟩ :=
  (C1_serialization_roundtrip 0x73 [0xa7] (by decide) (by decide) (by decide)).1
    (by decide)

theorem toBytes_getD_four (f : Ft12Frame) : f.toBytes.getD 4 0 = f.control :=
  rfl

/-- C2, corrected: `group_write` builds every data frame with the constant
control byte `FT12_DATA_REQUEST = 0x73`; the `KDrive` struct keeps no parity
state, so any sequence of successful data sends puts 0x73 on the wire every
time — the control byte never alternates to 0x53. -/
theorem C2_send_control_bytes (writes : List (Nat × List Nat)) :
    sendControlSeq writes = List.replicate writes.length 0x73 := by
  induction writes with
  | nil => rfl
  | cons w ws ih =>
    show (groupWriteFrame w.1 w.2).toBytes.getD 4 0 :: sendControlSeq ws =
      List.replicate (ws.length + 1) 0x73
    rw [toBytes_getD_four, ih]
    rfl

/-- C2 counterexample: five successful data sends put control bytes
`73 73 73 73 73` on the wire, not the claimed alternating
`73 53 73 53 73`. -/
theorem C2_counterexample :
    sendControlSeq
        [(0x10AA, [1]), (0x10AA, [1]), (0x10AA, [1]), (0x10AA, [1]),
          (0x10AA, [1])] =
      [0x73, 0x73, 0x73, 0x73, 0x73] ∧
    ([0x73, 0x73, 0x73, 0x73, 0x73] : List Nat) ≠
      [0x73, 0x53, 0x73, 0x53, 0x73] := by
  constructor
  · rfl
  · decide

theorem rxIteration_bad_checksum (c chk : Nat) (d : List Nat)
    (hd1 : 1 ≤ d.length) (hd2 : d.length ≤ 254)
    (hchk : chk ≠ (c + d.sum) % 256) :
    rxIteration
        (0x68 :: (d.length + 1) :: (d.length + 1) :: 0x68 :: c ::
          (d ++ [chk, 0x16])) =
      ⟨true, some .ChecksumMismatch, true⟩ := by
  have hlen : (0x68 :: (d.length + 1) :: (d.length + 1) :: 0x68 :: c ::
      (d ++ [chk, 0x16])).length = d.length + 7 := by simp
  have h0 : (0x68 :: (d.length + 1) :: (d.length + 1) :: 0x68 :: c ::
      (d ++ [chk, 0x16])).getD 0 0 = 0x68 := rfl
  have h1 : (0x68 :: (d.length + 1) :: (d.length + 1) :: 0x68 :: c ::
      (d ++ [chk, 0x16])).getD 1 0 = d.length + 1 := rfl
  have htake : (0x68 :: (d.length + 1) :: (d.length + 1) :: 0x68 :: c ::
      (d ++ [chk, 0x16])).take (d.length + 1 + 6) =
      0x68 :: (d.length + 1) :: (d.length + 1) :: 0x68 :: c ::
        (d ++ [chk, 0x16]) :=
    List.take_of_length_le (by simp)
  simp only [rxIteration, hlen, h0, h1, htake, FT12_FRAME_START]
  rw [if_neg (by omega), if_neg (by simp), if_neg (by omega)]
  simp only [processFrame, hlen]
  rw [if_neg (by omega)]
  rw [fromBytes_shape_eval c chk d hd1, if_neg hchk]

/-- C3, corrected: when a received frame's checksum byte does not match the
mod-256 sum of its control and data bytes, the receiver reports
`ChecksumMismatch` and the receive loop continues, so the next valid frame is
processed normally — but, contrary to the claim, the 0xE5 acknowledgement IS
written for the garbled frame: `read_and_ack_whole_frame` acks as soon as
the frame's bytes are read, before `process_frame` validates the checksum. -/
theorem C3_checksum_mismatch (c chk : Nat) (d : List Nat)
    (hd1 : 1 ≤ d.length) (hd2 : d.length ≤ 254)
    (hchk : chk ≠ (c + d.sum) % 256) :
    rxIteration
        (0x68 :: (d.length + 1) :: (d.length + 1) :: 0x68 :: c ::
          (d ++ [chk, 0x16])) =
      ⟨true, some .ChecksumMismatch, true⟩
    ∧ ∀ rest : List (List Nat),
        receiverRun
            ((0x68 :: (d.length + 1) :: (d.length + 1) :: 0x68 :: c ::
              (d ++ [chk, 0x16])) :: rest) =
          ⟨true, some .ChecksumMismatch, true⟩ :: receiverRun rest := by
  have h := rxIteration_bad_checksum c chk d hd1 hd2 hchk
  refine ⟨h, fun rest => ?_⟩
  simp only [receiverRun, h]
  rfl

/-- C3 counterexample: for the frame `68 02 02 68 D3 11 00 16` (checksum
byte 0x00, correct checksum 0xE4) the receive path writes the 0xE5 ack,
contradicting the claim that no ack is written for a checksum-mismatched
frame; the error is still reported and the loop still continues. -/
theorem C3_counterexample :
    (rxIteration [0x68, 2, 2, 0x68, 0xD3, 0x11, 0x00, 0x16]).ackSent = true
    ∧ rxIteration [0x68, 2, 2, 0x68, 0xD3, 0x11, 0x00, 0x16] =
        ⟨true, some .ChecksumMismatch, true⟩
    ∧ (0x00 : Nat) ≠ (0xD3 + 0x11) % 256 := by
  refine ⟨rfl, rfl, by decide⟩

/-- C3 witness: the general theorem applied to the frame
`68 02 02 68 D3 11 00 16` followed by a valid frame. -/
theorem C3_witness :
    receiverRun
        [[0x68, 2, 2, 0x68, 0xD3, 0x11, 0x00, 0x16],
          [0x68, 2, 2, 0x68, 0xD3, 0x11, 0xE4, 0x16]] =
      [⟨true, some .ChecksumMismatch, true⟩,
        ⟨true, none, true⟩] := by
  have h := (C3_checksum_mismatch 0xD3 0x00 [0x11] (by decide) (by decide)
    (by decide)).2 [[0x68, 2, 2, 0x68, 0xD3, 0x11, 0xE4, 0x16]]
  exact h.trans (by rfl)

theorem insert_lookup_self (m : StateStore) (k : Nat) (v : BlindState) :
    (m.insert k v) k = some v := by
  simp [StateStore.insert]

/-- C4, confirmed: for every blind `a..h` with any prior stored state,
processing `(t0, Down, full-move)` followed by
`(t0 + FULL_TRAVEL_TIME, single-step, any direction)` leaves the blind's
entry with no move in progress, position 0 and angle 0: the elapsed time
reaches `FULL_TRAVEL_TIME`, so `shortened_move` snaps to the Down
endpoint. -/
theorem C4_full_down_then_stop (t0 : Nat) (d2 : Direction) (k : Nat)
    (m : StateStore) (hk1 : 0xAA ≤ k) (hk2 : k ≤ 0xB1) :
    (trackSinglePress (t0 + FULL_TRAVEL_TIME) d2 true k
        (trackSinglePress t0 .Down false k m)) k =
      some ⟨none, .Down, 0, 0⟩ := by
  have hkw : ¬(k = Blind.wind) := by
    simp only [Blind.wind]
    omega
  have step1 : ∃ p a, (trackSinglePress t0 .Down false k m) k =
      some ⟨some t0, .Down, p, a⟩ := by
    match hm : m k with
    | none =>
      exact ⟨100, 7, by
        simp [trackSinglePress, hkw, hm, fullMove, Angle.MAX,
          insert_lookup_self]⟩
    | some st =>
      match ht : st.time with
      | none =>
        exact ⟨st.pos, st.ang, by
          simp [trackSinglePress, hkw, hm, ht, insert_lookup_self]⟩
      | some t =>
        exact ⟨(shortenedMove (t0 - t) st.movesUp st.pos st.ang).1,
          (shortenedMove (t0 - t) st.movesUp st.pos st.ang).2, by
          simp [trackSinglePress, hkw, hm, ht, insert_lookup_self]⟩
  obtain ⟨p, a, h1⟩ := step1
  have hsm : shortenedMove FULL_TRAVEL_TIME .Down p a = (0, 0) := by
    simp [shortenedMove, fullMove]
  generalize hm1 : trackSinglePress t0 .Down false k m = m1 at h1 ⊢
  simp [trackSinglePress, hkw, h1, hsm, insert_lookup_self]

/-- C4 witness: blind `a` (0xAA) starting from the empty store at `t0 = 3`,
with an Up single-step as the second event. -/
theorem C4_witness :
    (trackSinglePress (3 + FULL_TRAVEL_TIME) .Up true 0xAA
        (trackSinglePress 3 .Down false 0xAA StateStore.empty)) 0xAA =
      some ⟨none, .Down, 0, 0⟩ :=
  C4_full_down_then_stop 3 .Up 0xAA StateStore.empty (by decide) (by decide)

theorem posUp_le (p t : Nat) : Pos.up p t ≤ 100 := by
  unfold Pos.up
  split
  · omega
  · dsimp only
    split <;> omega

theorem posDown_le (p t : Nat) (hp : p ≤ 100) : Pos.down p t ≤ 100 := by
  unfold Pos.down
  split
  · omega
  · exact le_trans (Nat.sub_le _ _) hp

theorem angUp_le (a t : Nat) : Angle.up a t ≤ Angle.MAX := by
  unfold Angle.up
  split
  · omega
  · dsimp only
    split <;> omega

theorem angDown_le (a t : Nat) (ha : a ≤ Angle.MAX) :
    Angle.down a t ≤ Angle.MAX := by
  unfold Angle.down
  split
  · omega
  · exact le_trans (Nat.sub_le _ _) ha

theorem stepUp_le (a n : Nat) : (Angle.stepUp a n).1 ≤ Angle.MAX := by
  unfold Angle.stepUp
  dsimp only
  split
  · simp
  next h => simpa using Nat.le_of_not_lt h

theorem stepDown_le (a n : Nat) (ha : a ≤ Angle.MAX) :
    (Angle.stepDown a n).1 ≤ Angle.MAX := by
  unfold Angle.stepDown
  split
  · simpa using le_trans (Nat.sub_le a n) ha
  · simp

theorem fullMove_bounds (dir : Direction) :
    (fullMove dir).1 ≤ 100 ∧ (fullMove dir).2 ≤ Angle.MAX := by
  cases dir <;> simp [fullMove]

theorem shortenedMove_bounds (t : Nat) (dir : Direction) (p a : Nat)
    (hp : p ≤ 100) (ha : a ≤ Angle.MAX) :
    (shortenedMove t dir p a).1 ≤ 100 ∧
    (shortenedMove t dir p a).2 ≤ Angle.MAX := by
  unfold shortenedMove
  split
  · exact fullMove_bounds dir
  · cases dir
    · exact ⟨posUp_le p t, angUp_le a t⟩
    · exact ⟨posDown_le p t hp, angDown_le a t ha⟩

theorem insert_bounded (m : StateStore) (k : Nat) (v : BlindState)
    (hm : storeBounded m) (hp : v.pos ≤ 100) (ha : v.ang ≤ Angle.MAX) :
    storeBounded (m.insert k v) := by
  intro q st h
  simp only [StateStore.insert] at h
  by_cases hq : q = k
  · rw [if_pos hq] at h
    cases h
    exact ⟨hp, ha⟩
  · rw [if_neg hq] at h
    exact hm q st h

theorem foldl_preserves_bounded (f : StateStore → Nat → StateStore)
    (hf : ∀ m k, storeBounded m → storeBounded (f m k)) :
    ∀ (l : List Nat) (m : StateStore), storeBounded m →
      storeBounded (l.foldl f m) := by
  intro l
  induction l with
  | nil => exact fun m hm => hm
  | cons x xs ih => exact fun m hm => ih _ (hf m x hm)

theorem trackSinglePress_bounded (t : Nat) (g : Direction) (s : Bool)
    (id : Nat) (m : StateStore) (hm : storeBounded m) :
    storeBounded (trackSinglePress t g s id m) := by
  unfold trackSinglePress
  split
  · exact foldl_preserves_bounded _
      (fun m' k hm' => insert_bounded m' k _ hm' (by simp) (by simp))
      allBlinds m hm
  split
  · split
    next st hst =>
      have hb := hm _ _ hst
      split
      next t' ht' =>
        exact insert_bounded _ _ _ hm
          (shortenedMove_bounds _ _ _ _ hb.1 hb.2).1
          (shortenedMove_bounds _ _ _ _ hb.1 hb.2).2
      next ht' =>
        cases g
        · exact insert_bounded _ _ _ hm hb.1 (stepUp_le st.ang 1)
        · exact insert_bounded _ _ _ hm hb.1 (stepDown_le st.ang 1 hb.2)
    next hst => exact hm
  · split
    next st hst =>
      have hb := hm _ _ hst
      split
      next t' ht' =>
        exact insert_bounded _ _ _ hm
          (shortenedMove_bounds _ _ _ _ hb.1 hb.2).1
          (shortenedMove_bounds _ _ _ _ hb.1 hb.2).2
      next ht' => exact insert_bounded _ _ _ hm hb.1 hb.2
    next hst =>
      cases g <;>
        exact insert_bounded _ _ _ hm (fullMove_bounds _).1 (fullMove_bounds _).2

theorem sweep_bounded (now : Nat) (m : StateStore) (hm : storeBounded m) :
    storeBounded (sweep now m) := by
  unfold sweep
  refine foldl_preserves_bounded _ ?_ allBlinds m hm
  intro m' k hm'
  split
  next st hst =>
    split
    next t' ht' =>
      split
      · exact insert_bounded _ _ _ hm' (fullMove_bounds _).1 (fullMove_bounds _).2
      · exact hm'
    next => exact hm'
  next => exact hm'

/-- C5, confirmed: after any sequence of estimator events (wind, single-step,
full-move, bootstrap) and periodic sweeps, every stored entry has position in
`[0, 100]` and angle in `[0, 7]`; and each update operation (`Pos::up/down`,
`Angle::up/down/step_up/step_down`, `full_move`) preserves these bounds
(`Pos::up`, `Angle::up` and `Angle::step_up` clamp unconditionally; the
`down` operations are saturating subtractions from an in-bounds value). -/
theorem C5_position_angle_bounds :
    (∀ (events : List EstimatorEvent) (m : StateStore),
      storeBounded m → storeBounded (runEstimator events m))
    ∧ (∀ p t, Pos.up p t ≤ 100)
    ∧ (∀ p t, p ≤ 100 → Pos.down p t ≤ 100)
    ∧ (∀ a t, Angle.up a t ≤ Angle.MAX)
    ∧ (∀ a t, a ≤ Angle.MAX → Angle.down a t ≤ Angle.MAX)
    ∧ (∀ a n, (Angle.stepUp a n).1 ≤ Angle.MAX)
    ∧ (∀ a n, a ≤ Angle.MAX → (Angle.stepDown a n).1 ≤ Angle.MAX)
    ∧ (∀ dir, (fullMove dir).1 ≤ 100 ∧ (fullMove dir).2 ≤ Angle.MAX) := by
  refine ⟨?_, posUp_le, posDown_le, angUp_le, angDown_le, stepUp_le,
    stepDown_le, fullMove_bounds⟩
  intro events
  induction events with
  | nil => exact fun m hm => hm
  | cons e es ih =>
    intro m hm
    cases e with
    | press t g s id => exact ih _ (trackSinglePress_bounded t g s id m hm)
    | timeout now => exact ih _ (sweep_bounded now m hm)

/-- C5 witness: the invariant holds after a concrete event sequence from the
empty store, and the hypothesis-bearing operations stay in bounds at
concrete in-range inputs. -/
theorem C5_witness :
    storeBounded
      (runEstimator
        [.press 3 .Down false 0xAA, .press 5 .Up true 0xAB,
          .timeout (3 + FULL_TRAVEL_TIME)] StateStore.empty)
    ∧ Pos.down 40 7 ≤ 100
    ∧ Angle.down 5 7 ≤ Angle.MAX
    ∧ (Angle.stepDown 5 1).1 ≤ Angle.MAX :=
  ⟨C5_position_angle_bounds.1 _ StateStore.empty
      (fun _ _ h => by simp [StateStore.empty] at h),
    C5_position_angle_bounds.2.2.1 40 7 (by decide),
    C5_position_angle_bounds.2.2.2.2.1 5 7 (by decide),
    C5_position_angle_bounds.2.2.2.2.2.2.1 5 1 (by decide)⟩

/-- C6, confirmed: on the 11-byte cEMI payload
`29 00 bc e0 11 22 10 aa 01 00 81`, `get_msg_code` returns 0x29,
`is_group_write` returns true (APCI code
`(big_endian_u16(0x00, 0x81) >> 6) & 0x0F = 2` with length 11 ≥ 11),
`get_dest` returns 0x10AA and `get_group_data` returns `[0x01]`
(0x81 masked with 0x3F). -/
theorem C6_group_write_recognition :
    cEMIMsg.getMsgCode
        [0x29, 0x00, 0xbc, 0xe0, 0x11, 0x22, 0x10, 0xaa, 0x01, 0x00, 0x81] =
      0x29
    ∧ cEMIMsg.isGroupWrite
        [0x29, 0x00, 0xbc, 0xe0, 0x11, 0x22, 0x10, 0xaa, 0x01, 0x00, 0x81] =
      true
    ∧ cEMIMsg.getDest
        [0x29, 0x00, 0xbc, 0xe0, 0x11, 0x22, 0x10, 0xaa, 0x01, 0x00, 0x81] =
      .ok 0x10AA
    ∧ cEMIMsg.getGroupData
        [0x29, 0x00, 0xbc, 0xe0, 0x11, 0x22, 0x10, 0xaa, 0x01, 0x00, 0x81] =
      .ok [0x01] :=
  ⟨rfl, rfl, rfl, rfl⟩

theorem foldl_insert_const_lookup (v : BlindState) :
    ∀ (l : List Nat) (m : StateStore) (k : Nat),
      (k ∈ l ∨ m k = some v) →
      (l.foldl (fun m' k' => m'.insert k' v) m) k = some v := by
  intro l
  induction l with
  | nil =>
    intro m k hk
    rcases hk with h | h
    · cases h
    · exact h
  | cons x xs ih =>
    intro m k hk
    refine ih _ k ?_
    rcases hk with h | h
    · rcases List.mem_cons.mp h with h' | h'
      · right
        simp [StateStore.insert, h']
      · left
        exact h'
    · by_cases hx : k = x
      · right
        simp [StateStore.insert, hx]
      · right
        simp [StateStore.insert, hx, h]

/-- C7, confirmed: a group write classifying to the wind pseudo-blind
(message code 0x29, destination address 1, group data other than `[0]`)
produces the channel message `(now, Up, not-single-step, wind)`, and
processing that event sets every one of the eight blinds `a..h` to
`(Some now, Up, TOP, TOP)` — the estimator is deterministic, so no other
outcome is possible. -/
theorem C7_wind_all_up (d : List Nat) (now : Nat) (msg : List Nat)
    (t : Nat) (m : StateStore) (k : Nat)
    (hcode : cEMIMsg.getMsgCode d = KDRIVE_CEMI_L_DATA_IND)
    (hgw : cEMIMsg.isGroupWrite d = true)
    (hdest : cEMIMsg.getDest d = .ok 1)
    (hdata : cEMIMsg.getGroupData d = .ok msg)
    (hnz : msg ≠ [0])
    (hk1 : 0xAA ≤ k) (hk2 : k ≤ 0xB1) :
    onTelegramEvent d now = some (now, .Up, false, Blind.wind)
    ∧ (trackSinglePress t .Up false Blind.wind m) k =
        some ⟨some t, .Up, 100, Angle.MAX⟩ := by
  constructor
  · simp [onTelegramEvent, hcode, hgw, hdest, hdata, hnz]
  · have hmem : k ∈ allBlinds := by
      simp only [allBlinds, Blind.BUS_START_ADDR, List.mem_map, List.mem_range]
      exact ⟨k - 0xAA, by omega, by omega⟩
    simp only [trackSinglePress, if_pos rfl]
    exact foldl_insert_const_lookup _ allBlinds m k (Or.inl hmem)

/-- C7 witness: the telegram `29 00 bc e0 11 22 00 01 01 00 81` (destination
1, payload `[1]`) at `now = 42`, and the wind event applied to the empty
store at blind `a`. -/
theorem C7_witness :
    onTelegramEvent
        [0x29, 0x00, 0xbc, 0xe0, 0x11, 0x22, 0x00, 0x01, 0x01, 0x00, 0x81]
        42 =
      some (42, .Up, false, Blind.wind)
    ∧ (trackSinglePress 5 .Up false Blind.wind StateStore.empty) 0xAA =
        some ⟨some 5, .Up, 100, Angle.MAX⟩ :=
  C7_wind_all_up
    [0x29, 0x00, 0xbc, 0xe0, 0x11, 0x22, 0x00, 0x01, 0x01, 0x00, 0x81]
    42 [0x01] 5 StateStore.empty 0xAA rfl rfl rfl rfl (by decide)
    (by decide) (by decide)

/-- C8, corrected: when the current angle differs from the target by `delta`
steps in direction `dir`, the planner emits full-move in `dir`, sleeps
`FULL_TURN_TIME * delta / 8` (the code divides by 8, not by the claimed 7),
then emits a single-step stop in `dir`. -/
theorem C8_angle_phase (id cur ta : Nat) (d0 : Direction) (hne : cur ≠ ta) :
    anglePhase id cur ta d0 =
      [.send (Blind.toBusAddr id false) (Angle.delta cur ta).1,
        .sleep (FULL_TURN_TIME * (Angle.delta cur ta).2 / 8),
        .send (Blind.toBusAddr id true) (Angle.delta cur ta).1] := by
  by_cases h : ta < cur
  · simp [anglePhase, Angle.delta, h]
  · have h2 : ¬(cur = ta) := hne
    simp [anglePhase, Angle.delta, h, h2]

/-- C8 counterexample: moving blind `a`'s angle from 0 to 7 sleeps
`FULL_TURN_TIME * 7 / 8 = 2.45 s`, not the claimed
`FULL_TURN_TIME * 7 / 7 = 2.8 s`. -/
theorem C8_counterexample :
    anglePhase 0xAA 0 7 .Down =
      [.send 0x10AA .Up, .sleep 2450000000, .send 0x11AA .Up]
    ∧ FULL_TURN_TIME * 7 / 7 = 2800000000
    ∧ (2450000000 : Nat) ≠ 2800000000 :=
  ⟨rfl, rfl, by decide⟩

/-- C8 witness: the angle phase from angle 0 to angle 7 on blind `a`. -/
theorem C8_witness :
    anglePhase 0xAA 0 7 .Down =
      [.send (Blind.toBusAddr 0xAA false) (Angle.delta 0 7).1,
        .sleep (FULL_TURN_TIME * (Angle.delta 0 7).2 / 8),
        .send (Blind.toBusAddr 0xAA true) (Angle.delta 0 7).1] :=
  C8_angle_phase 0xAA 0 7 .Down (by decide)

/-- C9, corrected: `from_bus_addr` returns `Ok((lower, is_single_step))`
exactly when the low byte is in `[0xAA, 0xAA + 7]` — regardless of the high
byte.  `is_single_step` is true exactly when the high part equals
`CMD_SINGLE_STEP = 0x1100`; every other high part (not just
`CMD_FULL_MOVE = 0x1000`) is treated as a full move.  When the low byte is
out of range the error carries the raw low byte and high part. -/
theorem C9_from_bus_addr (addr : Nat) (haddr : addr < 0x10000) :
    ((0xAA ≤ addr &&& 0xFF ∧ addr &&& 0xFF ≤ 0xB1) →
      Blind.fromBusAddr addr =
        .ok (addr &&& 0xFF, decide (addr &&& 0xFF00 = Blind.CMD_SINGLE_STEP)))
    ∧ (¬(0xAA ≤ addr &&& 0xFF ∧ addr &&& 0xFF ≤ 0xB1) →
      Blind.fromBusAddr addr = .error (addr &&& 0xFF, addr &&& 0xFF00)) := by
  constructor
  · intro h
    simp only [Blind.fromBusAddr, Blind.BUS_START_ADDR]
    rw [if_pos (by omega)]
  · intro h
    simp only [Blind.fromBusAddr, Blind.BUS_START_ADDR]
    rw [if_neg (by omega)]

/-- C9 counterexample: address 0x20AA has low byte 0xAA in range but high
part 0x2000, which is neither command family; the claim says this is an
error, yet `from_bus_addr` returns `Ok((0xAA, false))`. -/
theorem C9_counterexample :
    Blind.fromBusAddr 0x20AA = .ok (0xAA, false)
    ∧ (0x20AA &&& 0xFF00) ≠ Blind.CMD_FULL_MOVE
    ∧ (0x20AA &&& 0xFF00) ≠ Blind.CMD_SINGLE_STEP :=
  ⟨rfl, by decide, by decide⟩

/-- C9 witness: a single-step address in range and a full-move address with
an out-of-range low byte. -/
theorem C9_witness :
    Blind.fromBusAddr 0x11AB =
      .ok (0x11AB &&& 0xFF, decide (0x11AB &&& 0xFF00 = Blind.CMD_SINGLE_STEP))
    ∧ Blind.fromBusAddr 0x1099 =
        .error (0x1099 &&& 0xFF, 0x1099 &&& 0xFF00) :=
  ⟨(C9_from_bus_addr 0x11AB (by decide)).1 (by decide),
    (C9_from_bus_addr 0x1099 (by decide)).2 (by decide)⟩

/-- C10, confirmed: for a cEMI payload whose NPDU length field `N` (byte 8)
satisfies `1 ≤ N ≤ 14` and whose total length is at least `10 + N`,
`get_group_data` returns a slice of length `max(1, N - 1)` whose first byte
is the byte at offset 10 masked with 0x3F; with `9 ≤ length < 10 + N` it
fails with the too-short error (`CemiFrameTruncated`), and with `N > 14`
(and the payload present) it fails with the too-large error
(`CemiDataTooLarge`). -/
theorem C10_group_data (d : List Nat) (N : Nat)
    (hN : d.getD 8 0 = N) (hN1 : 1 ≤ N) :
    (N ≤ 14 → 10 + N ≤ d.length →
      ∃ out, cEMIMsg.getGroupData d = .ok out
        ∧ out.length = max 1 (N - 1)
        ∧ out.getD 0 0 = d.getD 10 0 &&& 0x3F)
    ∧ (9 ≤ d.length → d.length < 10 + N →
        cEMIMsg.getGroupData d = .error .CemiFrameTruncated)
    ∧ (14 < N → 10 + N ≤ d.length →
        cEMIMsg.getGroupData d = .error .CemiDataTooLarge) := by
  refine ⟨?_, ?_, ?_⟩
  · intro h14 hlen
    have hplen : ((d.drop 10).take N).length = N := by
      simp [List.length_take, List.length_drop]
      omega
    refine ⟨((((d.drop 10).take N).getD 0 0 &&& 0x3F) ::
        ((d.drop 10).take N).tail).take (max (N - 1) 1), ?_, ?_, ?_⟩
    · simp only [cEMIMsg.getGroupData, hN, KDRIVE_MAX_GROUP_VALUE_LEN]
      rw [if_neg (by omega), if_neg (by omega), if_neg (by omega),
        if_neg (by omega)]
    · rw [List.length_take]
      simp only [List.length_cons, List.length_tail, hplen]
      omega
    · have hx : ((d.drop 10).take N).getD 0 0 = d.getD 10 0 := by
        simp [List.getD, List.getElem?_take, List.getElem?_drop,
          show 0 < N by omega]
      have hm : max (N - 1) 1 = (max (N - 1) 1 - 1) + 1 := by omega
      rw [hm, List.take_succ_cons, List.getD_cons_zero, hx]
  · intro h9 hlen
    simp only [cEMIMsg.getGroupData, hN]
    rw [if_neg (by omega), if_neg (by omega), if_pos (by omega)]
  · intro h14 hlen
    have hplen : ((d.drop 10).take N).length = N := by
      simp [List.length_take, List.length_drop]
      omega
    simp only [cEMIMsg.getGroupData, hN, KDRIVE_MAX_GROUP_VALUE_LEN]
    rw [if_neg (by omega), if_neg (by omega), if_neg (by omega),
      if_pos (by omega)]

/-- C10 witness: a 13-byte payload with `N = 3` yields a 2-byte slice whose
first byte is `0x81 & 0x3F = 0x01`. -/
theorem C10_witness :
    ∃ out,
      cEMIMsg.getGroupData
          [0x29, 0x00, 0xbc, 0xe0, 0x11, 0x22, 0x10, 0xaa, 0x03, 0x00, 0x81,
            0x55, 0x66] =
        .ok out
      ∧ out.length = max 1 (3 - 1)
      ∧ out.getD 0 0 =
          ([0x29, 0x00, 0xbc, 0xe0, 0x11, 0x22, 0x10, 0xaa, 0x03, 0x00, 0x81,
            0x55, 0x66] : List Nat).getD 10 0 &&& 0x3F :=
  (C10_group_data
      [0x29, 0x00, 0xbc, 0xe0, 0x11, 0x22, 0x10, 0xaa, 0x03, 0x00, 0x81,
        0x55, 0x66] 3 rfl (by decide)).1 (by decide) (by decide)

end Baos
